import Mathlib

/-!
Shallow embedding of the opencrawl fetch-and-extract core
(`opencrawl/core/crawling/`): data structures, proxy pool, retry loop of
`AsyncCrawler.fetch`, `fetch_all` order preservation, the extractor guard
shared by the three extractor variants, and the Markdown conversion.

Modelling conventions:
- Python `dict[str, str]` becomes an association list `List (String × String)`
  looked up with `List.lookup`; insertion-ordered dict assignment appends.
- Python `bytes` becomes `List Nat`.
- Python `float` delays become `ℚ` (the delays computed by the code,
  `retry_delay * 2 ** attempt`, are exact in binary floating point, so the
  rational model coincides with the float values).
- The network, the HTML parsing library (selectolax) and `random.choice`
  are external to the repository; they are modelled as explicit parameters
  (an attempt-outcome environment, abstract extractor bodies, a random
  index) so that the repository's own control flow is transcribed exactly.
-/

namespace OpenCrawl

/-- `ExtractionType` enum from `extractor/structures.py`. -/
inductive ExtractionType where
  | HTML
  | CONTENT
  | MARKDOWN
  | STRUCTURED
deriving DecidableEq, Repr

/-- `RawResponse` dataclass from `extractor/structures.py`. -/
structure RawResponse where
  url : String
  text : String
  status : Int := 200
deriving DecidableEq, Repr

/-- `ExtractionConfig` dataclass from `extractor/structures.py`. -/
structure ExtractionConfig where
  remove_scripts : Bool := true
  remove_styles : Bool := true
  remove_comments : Bool := true
  remove_nav : Bool := false
  remove_footer : Bool := false
  remove_header : Bool := false
  preserve_links : Bool := true
  preserve_images : Bool := true
  min_text_length : Nat := 10
  extract_metadata : Bool := true
deriving DecidableEq, Repr

/-- `ExtractedContent` dataclass from `extractor/structures.py`. -/
structure ExtractedContent where
  content : String
  metadata : List (String × String) := []
  links : List String := []
  images : List String := []
  extraction_type : ExtractionType := ExtractionType.CONTENT
  error : Option String := none
deriving DecidableEq, Repr

/-- `ExtractedContent.is_success` property. -/
def ExtractedContent.is_success (c : ExtractedContent) : Bool :=
  c.error = none && c.content ≠ ""

/-- `CrawlerConfig` dataclass from `crawling/structures.py` (field defaults as
in the source; `__post_init__` is modelled separately by `postInit`). -/
structure CrawlerConfig where
  max_concurrent_requests : Nat := 10
  request_timeout : Nat := 30
  max_retries : Nat := 3
  retry_delay : ℚ := 1
  headers : List (String × String) := []
  follow_redirects : Bool := true
  verify_ssl : Bool := true
  max_redirects : Nat := 10
  user_agent : String := "OpenCrawl/0.1.0"
  proxies : String := ""
  cookies : List (String × String) := []
  verbose : Bool := false
  extraction_strategy : Option ExtractionType := none
  extraction_config : Option ExtractionConfig := none
deriving DecidableEq, Repr

/-- `CrawlerConfig.__post_init__`: inserts the default "User-Agent" header when
absent, and fills `extraction_config` when a strategy is set without one. -/
def CrawlerConfig.postInit (c : CrawlerConfig) : CrawlerConfig :=
  let c :=
    if (c.headers.lookup "User-Agent").isNone then
      { c with headers := c.headers ++ [("User-Agent", c.user_agent)] }
    else c
  if c.extraction_strategy.isSome && c.extraction_config.isNone then
    { c with extraction_config := some {} }
  else c

/-- `CrawlRequest` dataclass from `crawling/structures.py`. -/
structure CrawlRequest where
  url : String
  method : String := "GET"
  headers : List (String × String) := []
  data : Option String := none
  params : List (String × String) := []
  cookies : List (String × String) := []
  metadata : List (String × String) := []
  extraction_strategy : Option ExtractionType := none
deriving DecidableEq, Repr

/-- `CrawlResponse` dataclass from `crawling/structures.py`. -/
structure CrawlResponse where
  url : String
  status : Int
  headers : List (String × String)
  content : List Nat
  text : String
  encoding : Option String := none
  metadata : List (String × String) := []
  error : Option String := none
  extracted : Option ExtractedContent := none
deriving DecidableEq, Repr

/-- `CrawlResponse.is_success`: `200 <= self.status < 300 and self.error is None`. -/
def CrawlResponse.is_success (r : CrawlResponse) : Prop :=
  200 ≤ r.status ∧ r.status < 300 ∧ r.error = none

instance (r : CrawlResponse) : Decidable r.is_success := by
  unfold CrawlResponse.is_success; infer_instance

/-- `Proxy` dataclass from `crawling/structures.py`. -/
structure Proxy where
  url : String
deriving DecidableEq, Repr

/-! ## Proxy pool (`crawling/proxies.py`) -/

/-- Python `proxy.strip()`-style stripping: drop leading and trailing
whitespace characters (`" \t\n\r\x0b\x0c"`). -/
def pyIsSpace (c : Char) : Bool :=
  c = ' ' || c = '\t' || c = '\n' || c = '\r' || c = '\x0b' || c = '\x0c'

def stripList (l : List Char) : List Char :=
  ((l.dropWhile pyIsSpace).reverse.dropWhile pyIsSpace).reverse

def pyStrip (s : String) : String :=
  String.mk (stripList s.data)

/-- Python `s.split(sep)` for a one-character separator: split on every
occurrence, keeping empty pieces (`"".split(",") == [""]`). -/
def splitOnChar (sep : Char) (l : List Char) : List (List Char) :=
  l.foldr
    (fun c acc =>
      match acc with
      | [] => [[c]]
      | cur :: rest => if c = sep then [] :: cur :: rest else (c :: cur) :: rest)
    [[]]

/-- Python `s.splitlines()` restricted to `\n` separators: like splitting on
`\n` but without a final empty piece for a trailing newline, and `[]` for the
empty string. -/
def pySplitlines (l : List Char) : List (List Char) :=
  if l = [] then []
  else if l.getLast? = some '\n' then (splitOnChar '\n' l).dropLast
  else splitOnChar '\n' l

/-- Python `s.startswith("#")`. -/
def startsWithHash : List Char → Bool
  | '#' :: _ => true
  | _ => false

/-- `Proxies._load_proxies`. The filesystem is passed in explicitly:
`fs path = some contents` when `open(path)` succeeds, `none` when it raises
`FileNotFoundError`. The branch condition is the source's
`"/" in self._proxies`. -/
def load_proxies (proxies : String) (fs : String → Option String) :
    Except String (List Proxy) :=
  if proxies.data = [] then
    Except.ok []
  else if proxies.data.contains '/' then
    match fs proxies with
    | none => Except.error ("FileNotFoundError: " ++ proxies)
    | some contents =>
        Except.ok (((pySplitlines contents.data).filter
            (fun line => stripList line ≠ [] ∧ ¬ startsWithHash (stripList line))).map
          (fun line => Proxy.mk (String.mk (stripList line))))
  else
    Except.ok (((splitOnChar ',' proxies.data).filter
        (fun p => stripList p ≠ [])).map
      (fun p => Proxy.mk (String.mk (stripList p))))

/-- `Proxies.rotate_proxy`: `random.choice` over the pool is modelled by an
arbitrary index `pick` reduced modulo the pool size; the empty pool yields the
sentinel `Proxy("")`. -/
def rotate_proxy (pool : List Proxy) (pick : Nat) : Proxy :=
  match pool with
  | [] => Proxy.mk ""
  | p :: ps => (p :: ps).get ⟨pick % (p :: ps).length, Nat.mod_lt _ (Nat.succ_pos _)⟩

/-! ## Extractor guard shared by the three variants -/

/-- Which concrete extractor class an entry of the engine's registry holds. -/
inductive ExtractorKind where
  | htmlE
  | contentE
  | markdownE
deriving DecidableEq, Repr

/-- The `ExtractionType` tag each extractor class stamps on its results. -/
def ExtractorKind.tag : ExtractorKind → ExtractionType
  | .htmlE => ExtractionType.HTML
  | .contentE => ExtractionType.CONTENT
  | .markdownE => ExtractionType.MARKDOWN

/-- The `try`/non-2xx-guard/`except` skeleton shared verbatim by
`HTMLExtractor.extract`, `ContentExtractor.extract` and
`MarkdownExtractor.extract`. `body` is the variant's happy path (parsing and
tree processing, done by the external selectolax library); a Python exception
raised there is an `Except.error` carrying `str(e)`. -/
def extractGuarded (ty : ExtractionType)
    (body : RawResponse → Except String ExtractedContent)
    (r : RawResponse) : ExtractedContent :=
  if r.status < 200 ∨ 300 ≤ r.status then
    { content := "", extraction_type := ty,
      error := some ("HTTP " ++ toString r.status) }
  else
    match body r with
    | Except.ok c => c
    | Except.error e =>
        { content := "", extraction_type := ty,
          error := some ("Extraction error: " ++ e) }

/-- `AsyncCrawler._init_extractors`: the registry built at construction. -/
def initExtractors : List (ExtractionType × ExtractorKind) :=
  [(ExtractionType.HTML, ExtractorKind.htmlE),
   (ExtractionType.CONTENT, ExtractorKind.contentE),
   (ExtractionType.MARKDOWN, ExtractorKind.markdownE)]

/-- `AsyncCrawler._get_extractor`. -/
def get_extractor (ty : Option ExtractionType) : Option ExtractorKind :=
  match ty with
  | none => none
  | some t => initExtractors.lookup t

/-- Run a registry entry's `extract`. `bodies` supplies each variant's abstract
happy path (the selectolax-dependent part). -/
def runExtractor (bodies : ExtractionType → RawResponse → Except String ExtractedContent) :
    ExtractorKind → RawResponse → ExtractedContent
  | k, r => extractGuarded k.tag (bodies k.tag) r

/-! ## Fetch engine (`crawling/crawler.py`, `AsyncCrawler.fetch` / `fetch_all`) -/

/-- What one HTTP exchange delivers when it completes: the fields of the
aiohttp response that `fetch` reads. -/
structure RawHttp where
  url : String
  status : Int
  headers : List (String × String)
  content : List Nat
  text : String
  charset : Option String
deriving DecidableEq, Repr

/-- The outcome of one attempt's `self._session.request(...)` block: success,
or one of the three exception classes caught by `fetch`. -/
inductive AttemptOutcome where
  | success (raw : RawHttp)
  | timeoutError (msg : String)
  | clientError (msg : String)
  | unexpected (msg : String)
deriving DecidableEq, Repr

/-- The categorised message `fetch` records in `last_error` for a failed
attempt (`none` for a successful one). -/
def AttemptOutcome.errorMessage : AttemptOutcome → Option String
  | .success _ => none
  | .timeoutError m => some ("Timeout error: " ++ m)
  | .clientError m => some ("Client error: " ++ m)
  | .unexpected m => some ("Unexpected error: " ++ m)

def AttemptOutcome.isFailure : AttemptOutcome → Bool
  | .success _ => false
  | _ => true

/-- `extraction_type = request.extraction_strategy or
self.config.extraction_strategy` (Python `or` on an optional enum). -/
def effectiveStrategy (cfg : CrawlerConfig) (req : CrawlRequest) :
    Option ExtractionType :=
  match req.extraction_strategy with
  | some t => some t
  | none => cfg.extraction_strategy

/-- The `extracted` field of the success-path response: set only when an
extraction type is selected and the registry holds an extractor for it. -/
def attachExtracted (cfg : CrawlerConfig) (req : CrawlRequest)
    (bodies : ExtractionType → RawResponse → Except String ExtractedContent)
    (raw : RawHttp) : Option ExtractedContent :=
  match effectiveStrategy cfg req with
  | none => none
  | some t =>
      match get_extractor (some t) with
      | none => none
      | some k => some (runExtractor bodies k
          { url := raw.url, text := raw.text, status := raw.status })

/-- The `CrawlResponse` built in `fetch`'s success path, including the
extraction step. -/
def successResponse (cfg : CrawlerConfig) (req : CrawlRequest)
    (bodies : ExtractionType → RawResponse → Except String ExtractedContent)
    (raw : RawHttp) : CrawlResponse :=
  { url := raw.url, status := raw.status, headers := raw.headers,
    content := raw.content, text := raw.text, encoding := raw.charset,
    metadata := req.metadata,
    extracted := attachExtracted cfg req bodies raw }

/-- The `CrawlResponse` returned after the retry loop exhausts all attempts. -/
def failResponse (req : CrawlRequest) (lastError : Option String) : CrawlResponse :=
  { url := req.url, status := 0, headers := [], content := [], text := "",
    metadata := req.metadata, error := lastError }

/-- The retry loop of `AsyncCrawler.fetch`, transcribed with explicit fuel
(`fuel = max_retries - attempt` remaining iterations of
`for attempt in range(self.config.max_retries)`). `env attempt` is the outcome
of attempt number `attempt` (the network is external). The second component
records, in order, the argument of every `asyncio.sleep` performed by the
backoff branch (`if attempt < max_retries - 1: wait = retry_delay * 2**attempt`). -/
def fetchLoop (cfg : CrawlerConfig) (req : CrawlRequest)
    (env : Nat → AttemptOutcome)
    (bodies : ExtractionType → RawResponse → Except String ExtractedContent) :
    Nat → Nat → Option String → CrawlResponse × List ℚ
  | 0, _, lastError => (failResponse req lastError, [])
  | fuel + 1, attempt, lastError =>
      match env attempt with
      | .success raw => (successResponse cfg req bodies raw, [])
      | o =>
          let e := o.errorMessage
          let rest := fetchLoop cfg req env bodies fuel (attempt + 1)
            (match e with | some m => some m | none => lastError)
          if 0 < fuel then
            (rest.1, cfg.retry_delay * 2 ^ attempt :: rest.2)
          else
            rest

/-- `AsyncCrawler.fetch` on an initialized engine (the `self._session` check
has passed): the response, paired with the trace of backoff sleeps. -/
def fetchRun (cfg : CrawlerConfig) (req : CrawlRequest)
    (env : Nat → AttemptOutcome)
    (bodies : ExtractionType → RawResponse → Except String ExtractedContent) :
    CrawlResponse × List ℚ :=
  fetchLoop cfg req env bodies cfg.max_retries 0 none

/-- `AsyncCrawler.fetch`: raises `RuntimeError` when the session is not set
up, otherwise runs the retry loop and returns its response. `sessionUp`
models `self._session` being non-`None`. -/
def fetch (cfg : CrawlerConfig) (sessionUp : Bool) (req : CrawlRequest)
    (env : Nat → AttemptOutcome)
    (bodies : ExtractionType → RawResponse → Except String ExtractedContent) :
    Except String CrawlResponse :=
  if sessionUp then
    Except.ok (fetchRun cfg req env bodies).1
  else
    Except.error "Crawler not set up. Use async context manager or call setup()"

/-- `asyncio.gather` over already-determined task results: tasks complete in
the order given by `order` (a permutation of the task indices) and each
deposits its result at its own input index; `gather` returns the slots in
input order. -/
def gather (tasks : List CrawlResponse) (order : List Nat) : List CrawlResponse :=
  order.foldl (fun acc i => acc.set i (tasks.getD i (failResponse { url := "" } none)))
    (List.replicate tasks.length (failResponse { url := "" } none))

/-- `AsyncCrawler.fetch_all`: one task per request (request `i` sees the
attempt outcomes `env i`), gathered in input order. When the engine is not
set up every task raises, and `gather` propagates the `RuntimeError`. -/
def fetch_all (cfg : CrawlerConfig) (sessionUp : Bool)
    (reqs : List CrawlRequest) (env : Nat → Nat → AttemptOutcome)
    (bodies : ExtractionType → RawResponse → Except String ExtractedContent)
    (order : List Nat) : Except String (List CrawlResponse) :=
  if sessionUp then
    Except.ok (gather
      (reqs.enum.map (fun p => (fetchRun cfg p.2 (env p.1) bodies).1)) order)
  else
    Except.error "Crawler not set up. Use async context manager or call setup()"

/-! ## Markdown conversion (`extractor/markdown.py`, `_convert_to_markdown`)

The selectolax parse tree is modelled as `HNode`; `node.css(sel)` for the
selectors the source uses (plain tag, tag with attribute, `parent > child`,
tag lists) is implemented over a pre-order traversal that records each
element's parent tag, matching the css engine's document-order results.
`node.text(strip=True)` concatenates the text chunks of the subtree, each
stripped. -/

inductive HNode where
  | text (s : String)
  | elem (tag : String) (attrs : List (String × String)) (children : List HNode)

def HNode.tagOf : HNode → Option String
  | .text _ => none
  | .elem t _ _ => some t

def HNode.attrGet (n : HNode) (key : String) : Option String :=
  match n with
  | .text _ => none
  | .elem _ attrs _ => attrs.lookup key

mutual
def HNode.textStrip : HNode → String
  | .text s => pyStrip s
  | .elem _ _ cs => HNode.textsStrip cs
def HNode.textsStrip : List HNode → String
  | [] => ""
  | c :: cs => HNode.textStrip c ++ HNode.textsStrip cs
end

mutual
/-- Pre-order list of the element nodes of the subtree (the node itself
included), each paired with its parent's tag (`none` for the root). -/
def HNode.preorderFrom : Option String → HNode → List (Option String × HNode)
  | _, .text _ => []
  | p, .elem t a cs => (p, HNode.elem t a cs) :: HNode.preorderList (some t) cs
def HNode.preorderList : Option String → List HNode → List (Option String × HNode)
  | _, [] => []
  | p, c :: cs => HNode.preorderFrom p c ++ HNode.preorderList p cs
end

/-- `'#' * level`. -/
def hashes (level : Nat) : String :=
  String.mk (List.replicate level '#')

/-- One left-to-right non-overlapping pass of
`markdown.replace("\n\n\n", "\n\n")`: scan left to right, on a match emit the
replacement and continue after the matched text. -/
def replaceTriple : List Char → List Char
  | [] => []
  | [c] => [c]
  | [c1, c2] => [c1, c2]
  | c1 :: c2 :: c3 :: rest =>
      if c1 == '\n' && c2 == '\n' && c3 == '\n' then
        '\n' :: '\n' :: replaceTriple rest
      else
        c1 :: replaceTriple (c2 :: c3 :: rest)

/-- `"\n\n\n" in markdown`. -/
def hasTriple : List Char → Bool
  | [] => false
  | [_] => false
  | [_, _] => false
  | c1 :: c2 :: c3 :: rest =>
      (c1 == '\n' && c2 == '\n' && c3 == '\n') || hasTriple (c2 :: c3 :: rest)

/-- The `while "\n\n\n" in markdown:` collapse loop, run with enough fuel to
reach the loop's exit condition (each replacement pass strictly shortens the
text, so `l.length` passes always suffice; `hasTriple_collapseNewlines` below
certifies that the exit condition is reached, i.e. the fuel never runs out). -/
def collapseGo : Nat → List Char → List Char
  | 0, l => l
  | fuel + 1, l => if hasTriple l then collapseGo fuel (replaceTriple l) else l

def collapseNewlines (l : List Char) : List Char :=
  collapseGo l.length l

def collapseString (s : String) : String :=
  String.mk (collapseNewlines s.data)

/-- `MarkdownExtractor._convert_to_markdown`, transcribed emission list by
emission list in the source's order. `urljoin` is Python's
`urllib.parse.urljoin`, an external library function passed in abstractly. -/
def convertToMarkdown (cfg : ExtractionConfig)
    (urljoin : String → String → String) (node : HNode) (base_url : String) :
    String :=
  let pre := HNode.preorderFrom none node
  let cssTag := fun (t : String) =>
    (pre.filter (fun q => q.2.tagOf = some t)).map (fun q => q.2)
  let headingParts := ((List.range 6).map (fun i => i + 1)).flatMap (fun level =>
    (cssTag ("h" ++ toString level)).filterMap (fun h =>
      let text := h.textStrip
      if text ≠ "" ∧ cfg.min_text_length ≤ text.length then
        some (hashes level ++ " " ++ text ++ "\n")
      else none))
  let paragraphParts := (cssTag "p").filterMap (fun p =>
    let text := p.textStrip
    if text ≠ "" ∧ cfg.min_text_length ≤ text.length then
      some (text ++ "\n")
    else none)
  let linkParts :=
    if cfg.preserve_links then
      ((pre.filter (fun q =>
          q.2.tagOf = some "a" ∧ (q.2.attrGet "href").isSome)).map
        (fun q => q.2)).filterMap (fun a =>
        match a.attrGet "href" with
        | none => none
        | some href =>
            let text := a.textStrip
            if href ≠ "" ∧ text ≠ "" ∧ cfg.min_text_length ≤ text.length then
              some ("[" ++ text ++ "](" ++ urljoin base_url href ++ ")")
            else none)
    else []
  let imageParts :=
    if cfg.preserve_images then
      ((pre.filter (fun q =>
          q.2.tagOf = some "img" ∧ (q.2.attrGet "src").isSome)).map
        (fun q => q.2)).filterMap (fun img =>
        match img.attrGet "src" with
        | none => none
        | some src =>
            if src ≠ "" then
              some ("![" ++ (img.attrGet "alt").getD "" ++ "](" ++
                urljoin base_url src ++ ")\n")
            else none)
    else []
  let olParts := ((pre.filter (fun q =>
      q.1 = some "ol" ∧ q.2.tagOf = some "li")).map (fun q => q.2)).filterMap
    (fun li =>
      let text := li.textStrip
      if text ≠ "" ∧ cfg.min_text_length ≤ text.length then
        some ("1. " ++ text ++ "\n")
      else none)
  let ulParts := ((pre.filter (fun q =>
      q.1 = some "ul" ∧ q.2.tagOf = some "li")).map (fun q => q.2)).filterMap
    (fun li =>
      let text := li.textStrip
      if text ≠ "" ∧ cfg.min_text_length ≤ text.length then
        some ("- " ++ text ++ "\n")
      else none)
  let codeBlockParts := ((pre.filter (fun q =>
      q.1 = some "pre" ∧ q.2.tagOf = some "code")).map (fun q => q.2)).filterMap
    (fun code =>
      let text := code.textStrip
      if text ≠ "" then some ("```\n" ++ text ++ "\n```\n") else none)
  let inlineCodeParts := ((pre.filter (fun q =>
      q.2.tagOf = some "code" ∧ q.1.isSome ∧ q.1 ≠ some "pre")).map
    (fun q => q.2)).filterMap (fun code =>
      let text := code.textStrip
      if text ≠ "" then some ("`" ++ text ++ "`") else none)
  let blockquoteParts := (cssTag "blockquote").filterMap (fun bq =>
    let text := bq.textStrip
    if text ≠ "" ∧ cfg.min_text_length ≤ text.length then
      some (String.intercalate "\n"
        (((splitOnChar '\n' text.data).filter
            (fun line => stripList line ≠ [])).map
          (fun line => "> " ++ String.mk line)) ++ "\n")
    else none)
  let boldParts := ((pre.filter (fun q =>
      q.2.tagOf = some "strong" ∨ q.2.tagOf = some "b")).map
    (fun q => q.2)).filterMap (fun b =>
      let text := b.textStrip
      if text ≠ "" then some ("**" ++ text ++ "**") else none)
  let italicParts := ((pre.filter (fun q =>
      q.2.tagOf = some "em" ∨ q.2.tagOf = some "i")).map
    (fun q => q.2)).filterMap (fun i =>
      let text := i.textStrip
      if text ≠ "" then some ("*" ++ text ++ "*") else none)
  let markdownParts := headingParts ++ paragraphParts ++ linkParts ++
    imageParts ++ olParts ++ ulParts ++ codeBlockParts ++ inlineCodeParts ++
    blockquoteParts ++ boldParts ++ italicParts
  pyStrip (collapseString (String.intercalate "\n" markdownParts))

/-- The selectolax parse of `"<h1>Heading Text Big</h1><p>Short</p>"`,
restricted to the `body` element that `extract` selects as the main content
region (the parser wraps a fragment in `html`/`head`/`body`). -/
def scenarioBody : HNode :=
  HNode.elem "body" []
    [HNode.elem "h1" [] [HNode.text "Heading Text Big"],
     HNode.elem "p" [] [HNode.text "Short"]]

/-! ## Helper lemmas -/

theorem replaceTriple_length_le (l : List Char) :
    (replaceTriple l).length ≤ l.length := by
  induction l using replaceTriple.induct with
  | case1 => simp [replaceTriple]
  | case2 c => simp [replaceTriple]
  | case3 c1 c2 => simp [replaceTriple]
  | case4 c1 c2 c3 rest h ih =>
      simp [replaceTriple, h]
      omega
  | case5 c1 c2 c3 rest h ih =>
      simp only [List.length_cons] at ih
      simp [replaceTriple, h]
      omega

theorem replaceTriple_length_lt :
    ∀ (l : List Char), hasTriple l = true → (replaceTriple l).length < l.length := by
  intro l
  induction l using replaceTriple.induct with
  | case1 => intro h; simp [hasTriple] at h
  | case2 c => intro h; simp [hasTriple] at h
  | case3 c1 c2 => intro h; simp [hasTriple] at h
  | case4 c1 c2 c3 rest h ih =>
      intro _
      have hle := replaceTriple_length_le rest
      simp [replaceTriple, h]
      omega
  | case5 c1 c2 c3 rest h ih =>
      intro htrip
      simp only [hasTriple, Bool.or_eq_true] at htrip
      have h2 : hasTriple (c2 :: c3 :: rest) = true := by
        rcases htrip with h1 | h2
        · exact absurd h1 h
        · exact h2
      have hlt := ih h2
      simp only [List.length_cons] at hlt
      simp [replaceTriple, h]
      omega

theorem hasTriple_collapseGo :
    ∀ (fuel : Nat) (l : List Char), l.length ≤ fuel →
      hasTriple (collapseGo fuel l) = false := by
  intro fuel
  induction fuel with
  | zero =>
      intro l hl
      have : l = [] := List.eq_nil_of_length_eq_zero (Nat.le_zero.mp hl)
      subst this
      rfl
  | succ f ih =>
      intro l hl
      rw [collapseGo]
      by_cases h : hasTriple l = true
      · rw [if_pos h]
        exact ih (replaceTriple l)
          (by have := replaceTriple_length_lt l h; omega)
      · rw [if_neg h]
        exact Bool.not_eq_true _ ▸ h

/-- The collapse loop only stops once no `"\n\n\n"` occurrence remains. -/
theorem hasTriple_collapseNewlines (l : List Char) :
    hasTriple (collapseNewlines l) = false :=
  hasTriple_collapseGo l.length l (Nat.le_refl _)

theorem isFailure_errorMessage_isSome (o : AttemptOutcome)
    (h : o.isFailure = true) : o.errorMessage.isSome = true := by
  cases o <;> simp_all [AttemptOutcome.isFailure, AttemptOutcome.errorMessage]

/-- One iteration of the retry loop over a successful attempt. -/
theorem fetchLoop_successStep (cfg : CrawlerConfig) (req : CrawlRequest)
    (env : Nat → AttemptOutcome)
    (bodies : ExtractionType → RawResponse → Except String ExtractedContent)
    (f a : Nat) (le : Option String) (raw : RawHttp)
    (h : env a = AttemptOutcome.success raw) :
    fetchLoop cfg req env bodies (f + 1) a le =
      (successResponse cfg req bodies raw, []) := by
  rw [fetchLoop, h]

/-- One iteration of the retry loop over a failed attempt: the recorded error
becomes the attempt's categorized message, and a backoff sleep of
`retry_delay * 2^a` is performed exactly when further attempts remain. -/
theorem fetchLoop_failStep (cfg : CrawlerConfig) (req : CrawlRequest)
    (env : Nat → AttemptOutcome)
    (bodies : ExtractionType → RawResponse → Except String ExtractedContent)
    (f a : Nat) (le : Option String)
    (h : (env a).isFailure = true) :
    fetchLoop cfg req env bodies (f + 1) a le =
      (if 0 < f then
        ((fetchLoop cfg req env bodies f (a + 1) (env a).errorMessage).1,
         cfg.retry_delay * 2 ^ a ::
           (fetchLoop cfg req env bodies f (a + 1) (env a).errorMessage).2)
       else
        fetchLoop cfg req env bodies f (a + 1) (env a).errorMessage) := by
  cases henv : env a with
  | success raw => rw [henv] at h; simp [AttemptOutcome.isFailure] at h
  | timeoutError m => rw [fetchLoop, henv]; rfl
  | clientError m => rw [fetchLoop, henv]; rfl
  | unexpected m => rw [fetchLoop, henv]; rfl

/-- The retry loop under an all-failing environment: it ends with the failure
response carrying the last attempt's categorized message, having slept
`retry_delay * 2^k` after every attempt but the last. -/
theorem fetchLoop_allFail (cfg : CrawlerConfig) (req : CrawlRequest)
    (env : Nat → AttemptOutcome)
    (bodies : ExtractionType → RawResponse → Except String ExtractedContent) :
    ∀ (fuel a : Nat) (le : Option String),
      (∀ k, k < fuel → (env (a + k)).isFailure = true) →
      fetchLoop cfg req env bodies fuel a le =
        (failResponse req
          (if fuel = 0 then le else (env (a + fuel - 1)).errorMessage),
         (List.range (fuel - 1)).map (fun k => cfg.retry_delay * 2 ^ (a + k))) := by
  intro fuel
  induction fuel with
  | zero => intro a le _; rfl
  | succ f ih =>
      intro a le hfail
      have h0 : (env a).isFailure = true := by
        have := hfail 0 (Nat.succ_pos f)
        simpa using this
      have hrest : ∀ k, k < f → (env (a + 1 + k)).isFailure = true := by
        intro k hk
        have := hfail (k + 1) (Nat.succ_lt_succ hk)
        rwa [show a + (k + 1) = a + 1 + k by omega] at this
      rw [fetchLoop_failStep cfg req env bodies f a le h0,
        ih (a + 1) _ hrest]
      cases f with
      | zero =>
          simp
      | succ g =>
          rw [if_pos (Nat.succ_pos g)]
          have herr : a + 1 + (g + 1) - 1 = a + (g + 1 + 1) - 1 := by omega
          have hdel : (List.range (g + 1 + 1 - 1)).map
                (fun k => cfg.retry_delay * 2 ^ (a + k)) =
              cfg.retry_delay * 2 ^ a ::
                (List.range (g + 1 - 1)).map
                  (fun k => cfg.retry_delay * 2 ^ (a + 1 + k)) := by
            simp only [Nat.add_sub_cancel, List.range_succ_eq_map,
              List.map_cons, List.map_map]
            rw [Nat.add_zero]
            congr 1
            apply List.map_congr_left
            intro k _
            simp only [Function.comp_apply]
            rw [show a + Nat.succ k = a + 1 + k by omega]
          simp only [herr, hdel]
          simp

/-- The retry loop when attempts `a .. a+t-1` fail and attempt `a+t` succeeds
within the remaining fuel: the success response is returned and a backoff of
`retry_delay * 2^k` was slept after each failed attempt `k`. -/
theorem fetchLoop_success (cfg : CrawlerConfig) (req : CrawlRequest)
    (env : Nat → AttemptOutcome)
    (bodies : ExtractionType → RawResponse → Except String ExtractedContent) :
    ∀ (t fuel a : Nat) (le : Option String) (raw : RawHttp),
      t < fuel →
      (∀ k, k < t → (env (a + k)).isFailure = true) →
      env (a + t) = AttemptOutcome.success raw →
      fetchLoop cfg req env bodies fuel a le =
        (successResponse cfg req bodies raw,
         (List.range t).map (fun k => cfg.retry_delay * 2 ^ (a + k))) := by
  intro t
  induction t with
  | zero =>
      intro fuel a le raw hlt _ hsucc
      cases fuel with
      | zero => exact absurd hlt (Nat.lt_irrefl 0)
      | succ f =>
          rw [fetchLoop_successStep cfg req env bodies f a le raw
            (by simpa using hsucc)]
          simp
  | succ s ih =>
      intro fuel a le raw hlt hfail hsucc
      cases fuel with
      | zero => exact absurd hlt (Nat.not_lt_zero _)
      | succ f =>
          have hs : s < f := Nat.lt_of_succ_lt_succ hlt
          have h0 : (env a).isFailure = true := by
            have := hfail 0 (Nat.succ_pos s)
            simpa using this
          rw [fetchLoop_failStep cfg req env bodies f a le h0,
            if_pos (Nat.lt_of_le_of_lt (Nat.zero_le s) hs),
            ih f (a + 1) _ raw hs
              (fun k hk => by
                have := hfail (k + 1) (Nat.succ_lt_succ hk)
                rwa [show a + (k + 1) = a + 1 + k by omega] at this)
              (by rwa [show a + 1 + s = a + (s + 1) by omega])]
          rw [List.range_succ_eq_map]
          simp only [List.map_cons, List.map_map, Nat.add_zero]
          rw [show List.map (fun k => cfg.retry_delay * 2 ^ (a + 1 + k))
                (List.range s) =
              List.map ((fun k => cfg.retry_delay * 2 ^ (a + k)) ∘ Nat.succ)
                (List.range s) from
            List.map_congr_left (fun k _ => by
              simp only [Function.comp_apply]
              rw [show a + 1 + k = a + Nat.succ k by omega])]

/-- Every response the retry loop produces is either a success-path response
or the all-retries-failed response. -/
theorem fetchLoop_shape (cfg : CrawlerConfig) (req : CrawlRequest)
    (env : Nat → AttemptOutcome)
    (bodies : ExtractionType → RawResponse → Except String ExtractedContent) :
    ∀ (fuel a : Nat) (le : Option String),
      (∃ raw, (fetchLoop cfg req env bodies fuel a le).1 =
        successResponse cfg req bodies raw) ∨
      (∃ le2, (fetchLoop cfg req env bodies fuel a le).1 =
        failResponse req le2) := by
  intro fuel
  induction fuel with
  | zero => intro a le; exact Or.inr ⟨le, rfl⟩
  | succ f ih =>
      intro a le
      cases henv : env a with
      | success raw =>
          rw [fetchLoop_successStep cfg req env bodies f a le raw henv]
          exact Or.inl ⟨raw, rfl⟩
      | timeoutError m =>
          rw [fetchLoop_failStep cfg req env bodies f a le (by rw [henv]; rfl)]
          rcases ih (a + 1) ((env a).errorMessage) with h | h
          · left
            rcases h with ⟨raw, hr⟩
            exact ⟨raw, by split <;> simpa using hr⟩
          · right
            rcases h with ⟨le2, hr⟩
            exact ⟨le2, by split <;> simpa using hr⟩
      | clientError m =>
          rw [fetchLoop_failStep cfg req env bodies f a le (by rw [henv]; rfl)]
          rcases ih (a + 1) ((env a).errorMessage) with h | h
          · left
            rcases h with ⟨raw, hr⟩
            exact ⟨raw, by split <;> simpa using hr⟩
          · right
            rcases h with ⟨le2, hr⟩
            exact ⟨le2, by split <;> simpa using hr⟩
      | unexpected m =>
          rw [fetchLoop_failStep cfg req env bodies f a le (by rw [henv]; rfl)]
          rcases ih (a + 1) ((env a).errorMessage) with h | h
          · left
            rcases h with ⟨raw, hr⟩
            exact ⟨raw, by split <;> simpa using hr⟩
          · right
            rcases h with ⟨le2, hr⟩
            exact ⟨le2, by split <;> simpa using hr⟩

theorem listGetD_set_self {α : Type} :
    ∀ (l : List α) (i : Nat) (v d : α), i < l.length →
      (l.set i v).getD i d = v := by
  intro l
  induction l with
  | nil => intro i v d h; simp at h
  | cons x xs ih =>
      intro i v d h
      cases i with
      | zero => rfl
      | succ j =>
          simp only [List.set, List.getD_cons_succ]
          exact ih j v d (Nat.lt_of_succ_lt_succ h)

theorem listGetD_set_ne {α : Type} :
    ∀ (l : List α) (i j : Nat) (v d : α), i ≠ j →
      (l.set i v).getD j d = l.getD j d := by
  intro l
  induction l with
  | nil => intro i j v d _; simp [List.set]
  | cons x xs ih =>
      intro i j v d hne
      cases i with
      | zero =>
          cases j with
          | zero => exact absurd rfl hne
          | succ k => rfl
      | succ i2 =>
          cases j with
          | zero => rfl
          | succ k =>
              simp only [List.set, List.getD_cons_succ]
              exact ih i2 k v d (fun he => hne (by rw [he]))

theorem gatherFold_length (f : Nat → CrawlResponse) :
    ∀ (order : List Nat) (acc : List CrawlResponse),
      (order.foldl (fun acc i => acc.set i (f i)) acc).length = acc.length := by
  intro order
  induction order with
  | nil => intro acc; rfl
  | cons a rest ih =>
      intro acc
      rw [List.foldl_cons, ih, List.length_set]

theorem gatherFold_getD_not_mem (f : Nat → CrawlResponse) :
    ∀ (order : List Nat) (acc : List CrawlResponse) (j : Nat) (d : CrawlResponse),
      j ∉ order →
      (order.foldl (fun acc i => acc.set i (f i)) acc).getD j d = acc.getD j d := by
  intro order
  induction order with
  | nil => intro acc j d _; rfl
  | cons a rest ih =>
      intro acc j d hnm
      rw [List.foldl_cons, ih _ j d (fun h => hnm (List.mem_cons_of_mem a h)),
        listGetD_set_ne acc a j _ d (fun h => hnm (h ▸ List.mem_cons_self a rest))]

theorem gatherFold_getD_mem (f : Nat → CrawlResponse) :
    ∀ (order : List Nat) (acc : List CrawlResponse) (j : Nat) (d : CrawlResponse),
      j ∈ order → j < acc.length →
      (order.foldl (fun acc i => acc.set i (f i)) acc).getD j d = f j := by
  intro order
  induction order with
  | nil => intro acc j d h _; simp at h
  | cons a rest ih =>
      intro acc j d hmem hlt
      rw [List.foldl_cons]
      by_cases hr : j ∈ rest
      · exact ih _ j d hr (by rw [List.length_set]; exact hlt)
      · have hja : j = a := by
          rcases List.mem_cons.mp hmem with h | h
          · exact h
          · exact absurd h hr
        subst hja
        rw [gatherFold_getD_not_mem f rest _ j d hr,
          listGetD_set_self acc j (f j) d hlt]

/-- `gather` returns the list of task results in input order whenever the
completion order is a permutation of the task indices. -/
theorem gather_spec (tasks : List CrawlResponse) (order : List Nat)
    (hperm : order.Perm (List.range tasks.length)) :
    (gather tasks order).length = tasks.length ∧
    ∀ j d, j < tasks.length →
      (gather tasks order).getD j d = tasks.getD j (failResponse { url := "" } none) := by
  constructor
  · rw [gather, gatherFold_length, List.length_replicate]
  · intro j d hj
    have hmem : j ∈ order := hperm.mem_iff.mpr (List.mem_range.mpr hj)
    exact gatherFold_getD_mem _ order _ j d hmem
      (by rw [List.length_replicate]; exact hj)

/-- The success-path response never carries an error string. -/
theorem successResponse_error (cfg : CrawlerConfig) (req : CrawlRequest)
    (bodies : ExtractionType → RawResponse → Except String ExtractedContent)
    (raw : RawHttp) : (successResponse cfg req bodies raw).error = none :=
  rfl

theorem lookup_append_of_none {β : Type} (l1 l2 : List (String × β)) (k : String)
    (h : l1.lookup k = none) : (l1 ++ l2).lookup k = l2.lookup k := by
  induction l1 with
  | nil => rfl
  | cons p t ih =>
      cases p with
      | mk k2 v =>
          simp only [List.lookup, List.cons_append] at h ⊢
          cases hkk : (k == k2) with
          | true => rw [hkk] at h; simp at h
          | false => rw [hkk] at h; exact ih h

/-! ## Claims -/

/-- C1: For every list of N crawl requests, `fetch_all` on an initialized
engine returns a list of exactly N responses, and for every index i, the i-th
response is the response produced by `fetch` for the i-th input request —
whatever order the tasks complete in. -/
theorem C1_fetch_all_preserves_input_order (cfg : CrawlerConfig)
    (reqs : List CrawlRequest) (env : Nat → Nat → AttemptOutcome)
    (bodies : ExtractionType → RawResponse → Except String ExtractedContent)
    (order : List Nat) (hperm : order.Perm (List.range reqs.length)) :
    ∃ rs, fetch_all cfg true reqs env bodies order = Except.ok rs ∧
      rs.length = reqs.length ∧
      ∀ i (d : CrawlResponse) (dr : CrawlRequest), i < reqs.length →
        fetch cfg true (reqs.getD i dr) (env i) bodies =
          Except.ok (rs.getD i d) := by
  have htl : (reqs.enum.map
      (fun p => (fetchRun cfg p.2 (env p.1) bodies).1)).length = reqs.length := by
    rw [List.length_map, List.enum_length]
  have hg := gather_spec
    (reqs.enum.map (fun p => (fetchRun cfg p.2 (env p.1) bodies).1)) order
    (by rw [htl]; exact hperm)
  refine ⟨_, rfl, hg.1.trans htl, ?_⟩
  intro i d dr hi
  have hi2 : i < (reqs.enum.map
      (fun p => (fetchRun cfg p.2 (env p.1) bodies).1)).length := by
    rw [htl]; exact hi
  show Except.ok (fetchRun cfg (reqs.getD i dr) (env i) bodies).1 = _
  rw [hg.2 i d (by rw [htl]; exact hi),
    List.getD_eq_getElem _ _ hi2, List.getD_eq_getElem reqs dr hi]
  simp only [List.getElem_map, List.getElem_enum]

/-- Witness for C1 at a concrete batch of two requests completing in reversed
order. -/
theorem C1_witness :
    ∃ rs, fetch_all {} true [{ url := "a" }, { url := "b" }]
        (fun _ _ => AttemptOutcome.success
          { url := "u", status := 200, headers := [], content := [],
            text := "", charset := none })
        (fun _ _ => Except.error "e") [1, 0] = Except.ok rs ∧
      rs.length = 2 ∧
      ∀ i (d : CrawlResponse) (dr : CrawlRequest), i < 2 →
        fetch {} true ([{ url := "a" }, { url := "b" }].getD i dr)
          ((fun (_ _ : Nat) => AttemptOutcome.success
            { url := "u", status := 200, headers := [], content := [],
              text := "", charset := none }) i)
          (fun _ _ => Except.error "e") = Except.ok (rs.getD i d) :=
  C1_fetch_all_preserves_input_order {} [{ url := "a" }, { url := "b" }]
    (fun _ _ => AttemptOutcome.success
      { url := "u", status := 200, headers := [], content := [],
        text := "", charset := none })
    (fun _ _ => Except.error "e") [1, 0] (by decide)

/-- C2: On an initialized engine, when every one of the `max_retries` attempts
fails, `fetch` does not raise: it returns a `CrawlResponse` with status 0,
empty content and text, and `error` equal to the last recorded
category-prefixed error string. -/
theorem C2_all_attempts_fail_yields_error_response (cfg : CrawlerConfig)
    (req : CrawlRequest) (env : Nat → AttemptOutcome)
    (bodies : ExtractionType → RawResponse → Except String ExtractedContent)
    (hpos : 0 < cfg.max_retries)
    (hfail : ∀ k, k < cfg.max_retries → (env k).isFailure = true) :
    fetch cfg true req env bodies =
      Except.ok { url := req.url, status := 0, headers := [], content := [],
                  text := "", metadata := req.metadata,
                  error := (env (cfg.max_retries - 1)).errorMessage } ∧
    ((env (cfg.max_retries - 1)).errorMessage).isSome = true := by
  constructor
  · show Except.ok (fetchRun cfg req env bodies).1 = _
    rw [fetchRun, fetchLoop_allFail cfg req env bodies cfg.max_retries 0 none
      (fun k hk => by simpa using hfail k hk)]
    rw [if_neg (by omega)]
    simp only [Nat.zero_add]
    rfl
  · exact isFailure_errorMessage_isSome _ (hfail _ (by omega))

/-- Witness for C2: three timeouts with the default config. -/
theorem C2_witness :
    fetch {} true { url := "u" }
        (fun k => AttemptOutcome.timeoutError (toString k))
        (fun _ _ => Except.error "e") =
      Except.ok { url := "u", status := 0, headers := [], content := [],
                  text := "", metadata := [],
                  error := some "Timeout error: 2" } ∧
    (some "Timeout error: 2" : Option String).isSome = true := by
  have h := C2_all_attempts_fail_yields_error_response {} { url := "u" }
    (fun k => AttemptOutcome.timeoutError (toString k))
    (fun _ _ => Except.error "e") (by decide) (fun k _ => rfl)
  exact ⟨h.1.trans (congrArg Except.ok (by decide)), rfl⟩

/-- C3: when attempts `0 .. j-1` fail (and attempt `j`, if within the retry
budget, succeeds), the backoff sleeps performed are exactly
`retry_delay * 2^k` for each failed attempt `k`, with no backoff after the
final attempt `max_retries - 1`. -/
theorem C3_backoff_is_exponential (cfg : CrawlerConfig) (req : CrawlRequest)
    (env : Nat → AttemptOutcome)
    (bodies : ExtractionType → RawResponse → Except String ExtractedContent)
    (j : Nat) (hj : j ≤ cfg.max_retries)
    (hfail : ∀ k, k < j → (env k).isFailure = true)
    (hsucc : j < cfg.max_retries → (env j).isFailure = false) :
    (fetchRun cfg req env bodies).2 =
      (List.range (min j (cfg.max_retries - 1))).map
        (fun k => cfg.retry_delay * 2 ^ k) := by
  by_cases hlt : j < cfg.max_retries
  · obtain ⟨raw, hraw⟩ : ∃ raw, env j = AttemptOutcome.success raw := by
      have hf := hsucc hlt
      cases h : env j with
      | success raw => exact ⟨raw, rfl⟩
      | timeoutError m => rw [h] at hf; simp [AttemptOutcome.isFailure] at hf
      | clientError m => rw [h] at hf; simp [AttemptOutcome.isFailure] at hf
      | unexpected m => rw [h] at hf; simp [AttemptOutcome.isFailure] at hf
    rw [fetchRun, fetchLoop_success cfg req env bodies j cfg.max_retries 0 none
      raw hlt (fun k hk => by simpa using hfail k hk) (by simpa using hraw)]
    rw [show min j (cfg.max_retries - 1) = j by omega]
    simp
  · have hje : j = cfg.max_retries := Nat.le_antisymm hj (Nat.not_lt.mp hlt)
    rw [fetchRun, fetchLoop_allFail cfg req env bodies cfg.max_retries 0 none
      (fun k hk => by simpa using hfail k (by omega))]
    rw [show min j (cfg.max_retries - 1) = cfg.max_retries - 1 by omega]
    simp

/-- Witness for C3: two failures then a success with the default config
(`max_retries = 3`, `retry_delay = 1`): sleeps `[1, 2]`. -/
theorem C3_witness :
    (fetchRun {} { url := "u" }
      (fun k => if k < 2 then AttemptOutcome.timeoutError "t"
        else AttemptOutcome.success
          { url := "u", status := 200, headers := [], content := [],
            text := "", charset := none })
      (fun _ _ => Except.error "e")).2 = [(1 : ℚ), 2] := by
  have h := C3_backoff_is_exponential {} { url := "u" }
    (fun k => if k < 2 then AttemptOutcome.timeoutError "t"
      else AttemptOutcome.success
        { url := "u", status := 200, headers := [], content := [],
          text := "", charset := none })
    (fun _ _ => Except.error "e") 2 (by decide) (by decide) (fun _ => rfl)
  refine h.trans ?_
  norm_num [List.range_succ]

/-- C4: every extractor variant short-circuits a non-2xx `RawResponse` to an
`ExtractedContent` with empty content and error `"HTTP {status}"` without
running the parsing body (the result does not depend on it), and on a 2xx
response any exception of the body is caught and converted to an
`ExtractedContent` error rather than propagated. -/
theorem C4_extract_non2xx_and_catch (k : ExtractorKind)
    (bodies bodies2 : ExtractionType → RawResponse → Except String ExtractedContent)
    (r : RawResponse) (e : String) :
    ((r.status < 200 ∨ 300 ≤ r.status) →
      runExtractor bodies k r =
        { content := "", extraction_type := k.tag,
          error := some ("HTTP " ++ toString r.status) } ∧
      runExtractor bodies k r = runExtractor bodies2 k r) ∧
    (200 ≤ r.status → r.status < 300 → bodies k.tag r = Except.error e →
      runExtractor bodies k r =
        { content := "", extraction_type := k.tag,
          error := some ("Extraction error: " ++ e) }) := by
  constructor
  · intro h
    constructor
    · rw [runExtractor, extractGuarded, if_pos h]
    · rw [runExtractor, extractGuarded, if_pos h,
        runExtractor, extractGuarded, if_pos h]
  · intro h1 h2 hb
    rw [runExtractor, extractGuarded, if_neg (by omega), hb]

/-- Witness for C4: a 404 short-circuits; on a 200 the body's exception is
converted. -/
theorem C4_witness :
    runExtractor (fun _ _ => Except.error "boom") ExtractorKind.htmlE
        { url := "u", text := "<p>x</p>", status := 404 } =
      { content := "", extraction_type := ExtractionType.HTML,
        error := some ("HTTP " ++ toString (404 : Int)) } ∧
    runExtractor (fun _ _ => Except.error "boom") ExtractorKind.markdownE
        { url := "u", text := "<p>x</p>", status := 200 } =
      { content := "", extraction_type := ExtractionType.MARKDOWN,
        error := some ("Extraction error: " ++ "boom") } :=
  ⟨((C4_extract_non2xx_and_catch ExtractorKind.htmlE
      (fun _ _ => Except.error "boom") (fun _ _ => Except.error "boom")
      { url := "u", text := "<p>x</p>", status := 404 } "boom").1
      (by decide)).1,
   (C4_extract_non2xx_and_catch ExtractorKind.markdownE
      (fun _ _ => Except.error "boom") (fun _ _ => Except.error "boom")
      { url := "u", text := "<p>x</p>", status := 200 } "boom").2
      (by decide) (by decide) rfl⟩

/-- C5: the configuration string `"http://a:1,http://b:2"` contains `/`, so
`_load_proxies` takes the read-from-file branch: with no file of that name,
construction raises `FileNotFoundError` instead of loading the two
comma-separated inline entries. -/
theorem C5_inline_proxy_urls_hit_file_branch :
    load_proxies "http://a:1,http://b:2" (fun _ => none) =
      Except.error "FileNotFoundError: http://a:1,http://b:2" := by
  rfl

/-- C6: `rotate_proxy` returns an element of the pool whenever the pool is
non-empty, and the empty-URL sentinel `Proxy("")` whenever it is empty. -/
theorem C6_rotate_proxy_stays_in_pool (pool : List Proxy) (pick : Nat) :
    (pool = [] → rotate_proxy pool pick = Proxy.mk "") ∧
    (pool ≠ [] → rotate_proxy pool pick ∈ pool) := by
  constructor
  · intro h
    subst h
    rfl
  · intro h
    cases pool with
    | nil => exact absurd rfl h
    | cons p ps => exact List.get_mem _ _ _

/-- Witness for C6: the empty pool and a two-element pool. -/
theorem C6_witness :
    rotate_proxy [] 0 = Proxy.mk "" ∧
    rotate_proxy [Proxy.mk "x", Proxy.mk "y"] 7 ∈
      [Proxy.mk "x", Proxy.mk "y"] :=
  ⟨(C6_rotate_proxy_stays_in_pool [] 0).1 rfl,
   (C6_rotate_proxy_stays_in_pool [Proxy.mk "x", Proxy.mk "y"] 7).2
     (by decide)⟩

/-- C7: every `CrawlResponse` produced by `fetch`'s retry loop has either no
error or the sentinel status 0 with empty content and text, and `is_success`
holds exactly when `error` is absent and the status lies in `[200, 300)`. -/
theorem C7_response_invariant (cfg : CrawlerConfig) (req : CrawlRequest)
    (env : Nat → AttemptOutcome)
    (bodies : ExtractionType → RawResponse → Except String ExtractedContent) :
    ((fetchRun cfg req env bodies).1.error = none ∨
      ((fetchRun cfg req env bodies).1.status = 0 ∧
       (fetchRun cfg req env bodies).1.content = [] ∧
       (fetchRun cfg req env bodies).1.text = "")) ∧
    ((fetchRun cfg req env bodies).1.is_success ↔
      ((fetchRun cfg req env bodies).1.error = none ∧
       200 ≤ (fetchRun cfg req env bodies).1.status ∧
       (fetchRun cfg req env bodies).1.status < 300)) := by
  constructor
  · rcases fetchLoop_shape cfg req env bodies cfg.max_retries 0 none with
      ⟨raw, h⟩ | ⟨le2, h⟩
    · left
      rw [fetchRun, h]
      exact successResponse_error cfg req bodies raw
    · right
      rw [fetchRun, h]
      exact ⟨rfl, rfl, rfl⟩
  · rw [CrawlResponse.is_success]
    tauto

/-- C8: the Markdown conversion joins its emitted parts with single newlines,
collapses every remaining run of three or more newlines to two (no `"\n\n\n"`
survives the collapse loop), trims the result, and on the scenario input
`<h1>Heading Text Big</h1><p>Short</p>` with `min_text_length = 10` produces
exactly `"# Heading Text Big"` — the 5-character paragraph is dropped. -/
theorem C8_markdown_scenario (uj : String → String → String) :
    convertToMarkdown { min_text_length := 10 } uj scenarioBody "" =
      "# Heading Text Big" ∧
    ∀ l, hasTriple (collapseNewlines l) = false := by
  constructor
  · rfl
  · exact hasTriple_collapseNewlines

/-- C9: `CrawlerConfig.__post_init__` guarantees a "User-Agent" header entry:
it inserts the `user_agent` field (default "OpenCrawl/0.1.0") when the caller
supplied none, and leaves a caller-supplied "User-Agent" header unchanged. -/
theorem C9_post_init_user_agent (c : CrawlerConfig) :
    ((c.postInit).headers.lookup "User-Agent" =
      some ((c.headers.lookup "User-Agent").getD c.user_agent)) ∧
    ((c.headers.lookup "User-Agent").isSome = true →
      (c.postInit).headers = c.headers) ∧
    (({} : CrawlerConfig).user_agent = "OpenCrawl/0.1.0") := by
  have hh : (c.postInit).headers =
      (if (c.headers.lookup "User-Agent").isNone then
        c.headers ++ [("User-Agent", c.user_agent)]
      else c.headers) := by
    unfold CrawlerConfig.postInit
    dsimp only
    split <;> split <;> rfl
  refine ⟨?_, ?_, rfl⟩
  · rw [hh]
    cases hO : c.headers.lookup "User-Agent" with
    | none =>
        simp only [Option.isNone_none, if_true]
        rw [lookup_append_of_none _ _ _ hO]
        simp [List.lookup]
    | some v => simp [hO]
  · intro hs
    rw [hh]
    cases hO : c.headers.lookup "User-Agent" with
    | none => rw [hO] at hs; simp at hs
    | some v => simp

/-- Witness for C9: a caller-supplied header survives; the default config gets
the default agent. -/
theorem C9_witness :
    (({ headers := [("User-Agent", "custom")] } : CrawlerConfig).postInit).headers =
      [("User-Agent", "custom")] ∧
    (({} : CrawlerConfig).postInit).headers.lookup "User-Agent" =
      some "OpenCrawl/0.1.0" := by
  constructor
  · exact (C9_post_init_user_agent
      { headers := [("User-Agent", "custom")] }).2.1 (by decide)
  · exact ((C9_post_init_user_agent {}).1).trans (by decide)

/-- C10: `STRUCTURED` is a valid `ExtractionType` but the registry built by
`_init_extractors` has no extractor for it, so a request whose effective
strategy is `STRUCTURED` and whose HTTP exchange succeeds comes back with
`extracted = none` and no error. -/
theorem C10_structured_has_no_extractor (cfg : CrawlerConfig)
    (req : CrawlRequest) (env : Nat → AttemptOutcome)
    (bodies : ExtractionType → RawResponse → Except String ExtractedContent)
    (raw : RawHttp)
    (heff : effectiveStrategy cfg req = some ExtractionType.STRUCTURED)
    (henv : env 0 = AttemptOutcome.success raw)
    (hmr : 0 < cfg.max_retries) :
    get_extractor (some ExtractionType.STRUCTURED) = none ∧
    (fetchRun cfg req env bodies).1.extracted = none ∧
    (fetchRun cfg req env bodies).1.error = none := by
  obtain ⟨f, hf⟩ : ∃ f, cfg.max_retries = f + 1 :=
    ⟨cfg.max_retries - 1, by omega⟩
  have hrun : (fetchRun cfg req env bodies).1 =
      successResponse cfg req bodies raw := by
    rw [fetchRun, hf,
      fetchLoop_successStep cfg req env bodies f 0 none raw henv]
  refine ⟨rfl, ?_, ?_⟩
  · rw [hrun]
    show attachExtracted cfg req bodies raw = none
    unfold attachExtracted
    rw [heff]
    rfl
  · rw [hrun]
    exact successResponse_error cfg req bodies raw

/-- Witness for C10: a request overriding the strategy to `STRUCTURED` with a
successful exchange. -/
theorem C10_witness :
    get_extractor (some ExtractionType.STRUCTURED) = none ∧
    (fetchRun {}
      { url := "u", extraction_strategy := some ExtractionType.STRUCTURED }
      (fun _ => AttemptOutcome.success
        { url := "u", status := 200, headers := [], content := [],
          text := "", charset := none })
      (fun _ _ => Except.error "e")).1.extracted = none ∧
    (fetchRun {}
      { url := "u", extraction_strategy := some ExtractionType.STRUCTURED }
      (fun _ => AttemptOutcome.success
        { url := "u", status := 200, headers := [], content := [],
          text := "", charset := none })
      (fun _ _ => Except.error "e")).1.error = none :=
  C10_structured_has_no_extractor {}
    { url := "u", extraction_strategy := some ExtractionType.STRUCTURED }
    (fun _ => AttemptOutcome.success
      { url := "u", status := 200, headers := [], content := [],
        text := "", charset := none })
    (fun _ _ => Except.error "e")
    { url := "u", status := 200, headers := [], content := [],
      text := "", charset := none }
    rfl rfl (by decide)

end OpenCrawl
